import Mathlib

/-
Verification of the connection-dispatch core of the Pumpkin server
(`src/pumpkin/src/main.rs`): the reactor loop of `main`, the token
allocator `next`, and the startup tuning `adjust_file_descriptor_limits`.

The embedding is shallow: the reactor-owned mutable state (the token
counter `unique_token`, the `connections` registry, the Server Context's
client index, and the poller's registrations) becomes an explicit
`ReactorState`, and each arm of the event loop becomes a function on it.
External collaborators that are not part of the sources (the `client` and
`server` modules, mio's `Poll`, the libc rlimit calls) are modelled at
their boundary, as documented on each definition.
-/

set_option autoImplicit false

namespace Pumpkin

/-- Token reserved for the listening socket: `const SERVER: Token = Token(0)`
(main.rs line 46). Tokens are `mio::Token`, an opaque unsigned integer,
embedded as `Nat` (the counter is treated as unbounded; wraparound is out of
scope per the spec). -/
def SERVER : Nat := 0

/-- An accepted TCP stream (`mio::net::TcpStream`). We track only the peer
address it was accepted from, abstracted as a `Nat`. -/
structure Connection where
  peerAddr : Nat
deriving DecidableEq

/-- Interest flags requested when registering a socket with the poller
(`mio::Interest`). -/
inductive Interest where
  | readable
  | writable
deriving DecidableEq

/-- Modelled from the spec: the `client` module is absent from the sources.
Per the spec's data model, a Client Session owns one connected socket and
holds an identity token, a remote address, and an open/closed flag; its
protocol state is abstracted as a `Nat`. -/
structure Client where
  token : Nat
  connection : Connection
  address : Nat
  closed : Bool
  protoState : Nat
deriving DecidableEq

/-- Modelled from the spec: `Client::new(token, connection, address)`
constructs a session holding the given identity token and connection, storing
its third argument as the session's (remote) address, with the closed flag
initially false. Note that the call site in `main` (main.rs line 148-152)
passes `addr` — the listening address — as this third argument, while the
peer address returned by `accept` is only logged. -/
def Client.new (token : Nat) (connection : Connection) (address : Nat) : Client :=
  { token := token, connection := connection, address := address,
    closed := false, protoState := 0 }

/-- Allocator `fn next(current: &mut Token) -> Token` (main.rs lines 211-215):
returns the current counter value and leaves the counter incremented. -/
def next (current : Nat) : Nat × Nat :=
  (current, current + 1)

/-- Tokens minted by `n` successive calls to `next` starting from counter
value `c`. -/
def mintTokens : Nat → Nat → List Nat
  | 0, _ => []
  | n + 1, c =>
      let m := next c
      m.1 :: mintTokens n m.2

/-- Reactor-owned state of the event loop in `main`: the counter
`unique_token`, the Connection Registry `connections` (the `HashMap<Token,
Rc<RefCell<Client>>>`), the token set known to the Server Context (through
`add_client` / `remove_client`), and the poller's registrations keyed by the
token each socket was registered under. -/
structure ReactorState where
  unique_token : Nat
  connections : List (Nat × Client)
  serverClients : List Nat
  registered : List (Nat × List Interest)
deriving DecidableEq

/-- Lookup in the Connection Registry (`connections.get_mut(&token)` /
`HashMap` lookup semantics: first matching key). -/
def lookupClient : List (Nat × Client) → Nat → Option Client
  | [], _ => none
  | p :: rest, t => if p.1 = t then some p.2 else lookupClient rest t

/-- In-place mutation of the registry's entry for `t` (the session is held in
an `Rc<RefCell<..>>` and is mutated through `borrow_mut`, so the map's key set
never changes on this path). -/
def updateEntry (l : List (Nat × Client)) (t : Nat) (c : Client) :
    List (Nat × Client) :=
  l.map fun p => if p.1 = t then (p.1, c) else p

/-- Removal of key `t` from the registry (`connections.remove(&token)`). -/
def eraseEntry (l : List (Nat × Client)) (t : Nat) : List (Nat × Client) :=
  l.filter fun p => p.1 ≠ t

/-- Key set of the registry. -/
def keys (l : List (Nat × Client)) : List Nat :=
  l.map Prod.fst

/-- Poller registration (`poll.registry().register(&mut connection, token,
interests)`, main.rs lines 142-146). -/
def registerPoller (token : Nat) (interests : List Interest)
    (st : ReactorState) : ReactorState :=
  { st with registered := (token, interests) :: st.registered }

/-- Modelled from the spec: the `server` module is absent from the sources.
The Server Context boundary exposes `add_client(identity, session)`; we record
the identity token in its client index (main.rs line 153). -/
def add_client (token : Nat) (st : ReactorState) : ReactorState :=
  { st with serverClients := token :: st.serverClients }

/-- Modelled from the spec: `Server::remove_client(&token)` removes the
identity token from the Server Context's client index (main.rs line 169). -/
def remove_client (token : Nat) (st : ReactorState) : ReactorState :=
  { st with serverClients := st.serverClients.filter fun x => x ≠ token }

/-- Insertion into the Connection Registry
(`connections.insert(token, client)`, main.rs line 154). -/
def insertRegistry (token : Nat) (c : Client) (st : ReactorState) :
    ReactorState :=
  { st with connections := (token, c) :: st.connections }

/-- Removal of the token from the Connection Registry, the first teardown
step (`connections.remove(&token)`, main.rs line 168). -/
def removeFromRegistry (token : Nat) (st : ReactorState) : ReactorState :=
  { st with connections := eraseEntry st.connections token }

/-- Poller deregistration of a session's socket
(`poll.registry().deregister(&mut client.connection)`, main.rs line 171); the
socket was registered under the session's token, so that registration entry
is removed. -/
def deregisterClient (c : Client) (st : ReactorState) : ReactorState :=
  { st with registered := st.registered.filter fun p => p.1 ≠ c.token }

/-- Outcome of one `listener.accept()` call (main.rs lines 120-134):
a successful accept carries the peer address and whether the subsequent
`set_nodelay(true)` succeeds (a nodelay failure is only logged); `WouldBlock`
means the queue is drained; any other error `e` is fatal. -/
inductive AcceptOutcome where
  | ok (address : Nat) (nodelayOk : Bool)
  | wouldBlock
  | fatal (e : Nat)
deriving DecidableEq

/-- One successful accept cycle (main.rs lines 135-154): mint a token via
`next`, register the connection with the poller for READABLE|WRITABLE
interest, construct the `Client` (passing `addr`, the listening address, as
the source does), call `add_client` on the Server Context, and insert into
the Connection Registry — in that order. -/
def acceptOne (listenAddr : Nat) (conn : Connection) (st : ReactorState) :
    ReactorState :=
  let m := next st.unique_token
  let token := m.1
  let st1 : ReactorState := { st with unique_token := m.2 }
  let st2 := registerPoller token [Interest.readable, Interest.writable] st1
  let client := Client.new token conn listenAddr
  let st3 := add_client token st2
  insertRegistry token client st3

/-- The tight accept loop run on a readiness event for `SERVER` (main.rs
lines 117-155): drain queued connections one by one; `WouldBlock` breaks back
to polling with the state accumulated so far; any other accept error
propagates out as `Err(e)`. The input list is the sequence of results the
successive `accept` calls produce. -/
def acceptDrain (listenAddr : Nat) :
    List AcceptOutcome → ReactorState → Except Nat ReactorState
  | [], st => Except.ok st
  | AcceptOutcome.wouldBlock :: _, st => Except.ok st
  | AcceptOutcome.fatal e :: _, _ => Except.error e
  | AcceptOutcome.ok address _ :: rest, st =>
      acceptDrain listenAddr rest (acceptOne listenAddr ⟨address⟩ st)

/-- Handling of a readiness event carrying a non-`SERVER` token (main.rs
lines 157-174). `procFn` abstracts the external `Client::poll(&mut server,
event).await`: it transforms the session's state, and the core reads back
only the `closed` flag. If the token is absent from the registry the event is
ignored (`done = false`); if the session reports closed, the code removes the
token from the registry, removes it from the Server Context, and deregisters
the socket, in that order. -/
def handleConnEvent (procFn : Client → Client) (token : Nat)
    (st : ReactorState) : ReactorState :=
  match lookupClient st.connections token with
  | some client =>
      let client' := procFn client
      let st1 : ReactorState :=
        { st with connections := updateEntry st.connections token client' }
      if client'.closed then
        match lookupClient st1.connections token with
        | some c =>
            deregisterClient c (remove_client token (removeFromRegistry token st1))
        | none => st1
      else st1
  | none => st

/-- A readiness event delivered by `poll`: the token it carries and, when it
is the listener token, the accept-queue contents the drain will observe. -/
structure Ev where
  token : Nat
  queue : List AcceptOutcome

/-- Classification of one event by token (`match event.token()`, main.rs
lines 116-175): the `SERVER` token runs the accept drain, any other token is
routed to the connection handler (which never errors). -/
def processEvent (procFn : Client → Client) (listenAddr : Nat)
    (st : ReactorState) (ev : Ev) : Except Nat ReactorState :=
  if ev.token = SERVER then acceptDrain listenAddr ev.queue st
  else Except.ok (handleConnEvent procFn ev.token st)

/-- Processing of one poll batch in loop order (`for event in events.iter()`,
main.rs line 115), stopping at the first fatal error. -/
def processBatch (procFn : Client → Client) (listenAddr : Nat) :
    List Ev → ReactorState → Except Nat ReactorState
  | [], st => Except.ok st
  | ev :: rest, st =>
      match processEvent procFn listenAddr st ev with
      | Except.ok st' => processBatch procFn listenAddr rest st'
      | Except.error e => Except.error e

/-- Result of one `poll.poll(&mut events, None)` call: a batch of events, or
an error that is either an interruption (`interrupted(&err)`, a check of
`ErrorKind::Interrupted` from the absent `client` module, modelled from the
spec as a flag on the error) or some other OS error `e`. -/
inductive PollResult where
  | ok (batch : List Ev)
  | err (isInterrupted : Bool) (e : Nat)

/-- Outcome of one iteration of the reactor loop (main.rs lines 107-177). -/
inductive IterOutcome where
  | retry (st : ReactorState)
  | next (st : ReactorState)
  | fatal (e : Nat)
deriving DecidableEq

/-- One iteration of the reactor loop (main.rs lines 107-177): an interrupted
poll hits `continue` — the loop retries with the state untouched and no event
processed; any other poll error is returned from the loop; otherwise the
batch is processed in order, and a fatal error inside the batch is likewise
returned. -/
def reactorIter (procFn : Client → Client) (listenAddr : Nat)
    (pr : PollResult) (st : ReactorState) : IterOutcome :=
  match pr with
  | PollResult.err true _ => IterOutcome.retry st
  | PollResult.err false e => IterOutcome.fatal e
  | PollResult.ok batch =>
      match processBatch procFn listenAddr batch st with
      | Except.ok st' => IterOutcome.next st'
      | Except.error e => IterOutcome.fatal e

/-- Process resource limits (`libc::rlimit`): soft (`rlim_cur`) and hard
(`rlim_max`) open-file-descriptor limits. -/
structure Rlimit where
  rlim_cur : Nat
  rlim_max : Nat
deriving DecidableEq

/-- Outcome of startup tuning: the new limits on success, or a process abort
(`panic!`). -/
inductive TuneOutcome where
  | ok (limits : Rlimit)
  | panicked
deriving DecidableEq

/-- Startup tuning `adjust_file_descriptor_limits` (main.rs lines 181-209),
with the two libc calls abstracted at their boundary: `getr` is the result of
`getrlimit(RLIMIT_NOFILE)` (`none` when the call fails) and `setr` says
whether `setrlimit` accepts the requested limits. A failing read panics; the
soft limit is then set to the hard limit; a failing write panics. -/
def adjust_file_descriptor_limits (getr : Option Rlimit)
    (setr : Rlimit → Bool) : TuneOutcome :=
  match getr with
  | none => TuneOutcome.panicked
  | some limits =>
      let limits' : Rlimit := { limits with rlim_cur := limits.rlim_max }
      if setr limits' then TuneOutcome.ok limits' else TuneOutcome.panicked

/-- Registry/context consistency: the Connection Registry and the Server
Context know the same set of tokens. -/
def tokensConsistent (st : ReactorState) : Prop :=
  ∀ t, t ∈ keys st.connections ↔ t ∈ st.serverClients

/-- The identity session processing: the event changes nothing in the
session, in particular it leaves the closed flag false. Used as a concrete
instantiation of the external `Client::poll`. -/
def procId : Client → Client := fun c => c

/-- A session processing that reports the session closed after the event.
Used as a concrete instantiation of the external `Client::poll`. -/
def closeAll : Client → Client := fun c => { c with closed := true }

/-- The reactor state right after startup: counter at `SERVER + 1`, empty
registry and context, the listener registered under `SERVER` for READABLE. -/
def initSt : ReactorState :=
  { unique_token := SERVER + 1, connections := [], serverClients := [],
    registered := [(SERVER, [Interest.readable])] }

/-- A sample live session: token 1, accepted from peer address 42, with the
listening address 7 stored as its address field (as the call site does). -/
def sampleClient : Client :=
  { token := 1, connection := ⟨42⟩, address := 7, closed := false,
    protoState := 0 }

/-- A sample reactor state after one accepted connection. -/
def sampleSt : ReactorState :=
  { unique_token := 2, connections := [(1, sampleClient)],
    serverClients := [1],
    registered := [(SERVER, [Interest.readable]),
                   (1, [Interest.readable, Interest.writable])] }

/-- The state reached from `sampleSt` by one reactor iteration over a batch
holding one listener event (one accept from peer 5, then would-block) and one
event for the live token 1 processed by `procId`. -/
def c5After : ReactorState :=
  { unique_token := 3,
    connections := [(2, Client.new 2 ⟨5⟩ 7), (1, sampleClient)],
    serverClients := [2, 1],
    registered := [(2, [Interest.readable, Interest.writable]),
                   (SERVER, [Interest.readable]),
                   (1, [Interest.readable, Interest.writable])] }

/-- A `setrlimit` stand-in that accepts any requested limits. -/
def setrTrue : Rlimit → Bool := fun _ => true

/- ### Helper lemmas about the registry operations and the allocator -/

theorem mem_mintTokens {n c t : Nat} :
    t ∈ mintTokens n c ↔ c ≤ t ∧ t < c + n := by
  induction n generalizing c with
  | zero => simp [mintTokens]
  | succ n ih =>
      simp only [mintTokens, next, List.mem_cons, ih]
      omega

theorem mintTokens_nodup (n c : Nat) : (mintTokens n c).Nodup := by
  induction n generalizing c with
  | zero => simp [mintTokens]
  | succ n ih =>
      simp only [mintTokens, next, List.nodup_cons]
      exact ⟨fun h => by have := mem_mintTokens.mp h; omega, ih (c + 1)⟩

theorem lookupClient_updateEntry_self {l : List (Nat × Client)} {t : Nat}
    {c₀ : Client} (c : Client) (h : lookupClient l t = some c₀) :
    lookupClient (updateEntry l t c) t = some c := by
  induction l with
  | nil => simp [lookupClient] at h
  | cons p rest ih =>
      by_cases hp : p.1 = t
      · simp [lookupClient, updateEntry, hp]
      · simp only [lookupClient, updateEntry, hp, if_neg, List.map_cons] at h ⊢
        simp only [if_neg hp, lookupClient, hp, if_false] at h ⊢
        exact ih h

theorem keys_updateEntry (l : List (Nat × Client)) (t : Nat) (c : Client) :
    keys (updateEntry l t c) = keys l := by
  induction l with
  | nil => rfl
  | cons p rest ih =>
      by_cases hp : p.1 = t <;>
        simp only [keys, updateEntry, List.map_cons, hp, if_pos, if_neg,
          ite_true, ite_false] <;>
        simp only [keys, updateEntry] at ih <;> rw [ih]

theorem lookupClient_eraseEntry_self (l : List (Nat × Client)) (t : Nat) :
    lookupClient (eraseEntry l t) t = none := by
  induction l with
  | nil => rfl
  | cons p rest ih =>
      by_cases hp : p.1 = t <;>
        simp [eraseEntry, List.filter_cons, hp, lookupClient] at ih ⊢ <;>
        simpa [eraseEntry] using ih

theorem mem_keys_eraseEntry {l : List (Nat × Client)} {t x : Nat} :
    x ∈ keys (eraseEntry l t) ↔ x ∈ keys l ∧ x ≠ t := by
  simp only [keys, eraseEntry, List.mem_map, List.mem_filter,
    decide_eq_true_eq]
  constructor
  · rintro ⟨p, ⟨hpl, hpt⟩, rfl⟩
    exact ⟨⟨p, hpl, rfl⟩, hpt⟩
  · rintro ⟨⟨p, hpl, rfl⟩, hxt⟩
    exact ⟨p, ⟨hpl, hxt⟩, rfl⟩

theorem mem_filter_ne {l : List Nat} {t x : Nat} :
    (x ∈ l.filter fun y => y ≠ t) ↔ x ∈ l ∧ x ≠ t := by
  simp [List.mem_filter]

/- ### Preservation of registry/context consistency -/

theorem tokensConsistent_acceptOne (a : Nat) (conn : Connection)
    {st : ReactorState} (h : tokensConsistent st) :
    tokensConsistent (acceptOne a conn st) := by
  intro t
  have h' := h t
  simp only [keys] at h'
  simp only [acceptOne, next, registerPoller, add_client, insertRegistry,
    keys, List.map_cons, List.mem_cons]
  rw [h']

theorem tokensConsistent_handleConnEvent (procFn : Client → Client)
    (token : Nat) {st : ReactorState} (h : tokensConsistent st) :
    tokensConsistent (handleConnEvent procFn token st) := by
  cases hl : lookupClient st.connections token with
  | none => simpa [handleConnEvent, hl] using h
  | some client =>
      have hup := lookupClient_updateEntry_self (l := st.connections)
        (t := token) (procFn client) hl
      by_cases hc : (procFn client).closed
      · intro t
        simp only [handleConnEvent, hl, hc, if_true, hup, deregisterClient,
          remove_client, removeFromRegistry]
        rw [mem_keys_eraseEntry, mem_filter_ne, keys_updateEntry, h t]
      · intro t
        simp only [handleConnEvent, hl, hc, if_false, Bool.false_eq_true]
        rw [keys_updateEntry, h t]

theorem tokensConsistent_acceptDrain (a : Nat) (queue : List AcceptOutcome)
    {st st' : ReactorState} (h : tokensConsistent st)
    (hd : acceptDrain a queue st = Except.ok st') : tokensConsistent st' := by
  induction queue generalizing st with
  | nil =>
      simp only [acceptDrain, Except.ok.injEq] at hd
      exact hd ▸ h
  | cons o rest ih =>
      cases o with
      | wouldBlock =>
          simp only [acceptDrain, Except.ok.injEq] at hd
          exact hd ▸ h
      | fatal e => exact Except.noConfusion hd
      | ok address nodelayOk =>
          exact ih (tokensConsistent_acceptOne a ⟨address⟩ h) hd

theorem tokensConsistent_processEvent (procFn : Client → Client) (a : Nat)
    (ev : Ev) {st st' : ReactorState} (h : tokensConsistent st)
    (hp : processEvent procFn a st ev = Except.ok st') :
    tokensConsistent st' := by
  by_cases ht : ev.token = SERVER
  · simp only [processEvent, ht, if_true] at hp
    exact tokensConsistent_acceptDrain a ev.queue h hp
  · simp only [processEvent, ht, if_false, Except.ok.injEq] at hp
    exact hp ▸ tokensConsistent_handleConnEvent procFn ev.token h

theorem tokensConsistent_processBatch (procFn : Client → Client) (a : Nat)
    (batch : List Ev) {st st' : ReactorState} (h : tokensConsistent st)
    (hb : processBatch procFn a batch st = Except.ok st') :
    tokensConsistent st' := by
  induction batch generalizing st with
  | nil =>
      simp only [processBatch, Except.ok.injEq] at hb
      exact hb ▸ h
  | cons ev rest ih =>
      simp only [processBatch] at hb
      cases hpe : processEvent procFn a st ev with
      | ok s1 =>
          rw [hpe] at hb
          exact ih (tokensConsistent_processEvent procFn a ev h hpe) hb
      | error e => rw [hpe] at hb; simp at hb

/-- Draining the accept queue: a run of successful accepts terminated by
`WouldBlock` accepts every queued connection, in order, and returns to
polling. -/
theorem acceptDrain_drains (a : Nat) (peers : List (Nat × Bool))
    (rest : List AcceptOutcome) (st : ReactorState) :
    acceptDrain a (peers.map (fun p => AcceptOutcome.ok p.1 p.2) ++
        AcceptOutcome.wouldBlock :: rest) st =
      Except.ok (peers.foldl (fun s p => acceptOne a ⟨p.1⟩ s) st) := by
  induction peers generalizing st with
  | nil => rfl
  | cons p ps ih => exact ih (acceptOne a ⟨p.1⟩ st)

/-- Draining the accept queue: a non-would-block accept error aborts the
drain with that error. -/
theorem acceptDrain_fatal (a e : Nat) (peers : List (Nat × Bool))
    (rest : List AcceptOutcome) (st : ReactorState) :
    acceptDrain a (peers.map (fun p => AcceptOutcome.ok p.1 p.2) ++
        AcceptOutcome.fatal e :: rest) st = Except.error e := by
  induction peers generalizing st with
  | nil => rfl
  | cons p ps ih => exact ih (acceptOne a ⟨p.1⟩ st)

/- ### Claim theorems -/

/-- C1: when the session looked up for a readiness event reports its closed
flag true after its per-event processing, the reactor performs teardown in
exactly this order — registry removal, then Server Context removal, then
poller deregistration (the handler's result is literally the composition of
the three steps applied in that order to the post-processing state) — and
afterwards the token is absent from both the registry and the context. -/
theorem C1_teardown_order (procFn : Client → Client) (token : Nat)
    (st : ReactorState) (client : Client)
    (hl : lookupClient st.connections token = some client)
    (hc : (procFn client).closed = true) :
    handleConnEvent procFn token st =
      deregisterClient (procFn client)
        (remove_client token
          (removeFromRegistry token
            { st with
                connections := updateEntry st.connections token (procFn client) })) ∧
    lookupClient (handleConnEvent procFn token st).connections token = none ∧
    token ∉ (handleConnEvent procFn token st).serverClients := by
  have hup := lookupClient_updateEntry_self (l := st.connections) (t := token)
    (procFn client) hl
  have heq : handleConnEvent procFn token st =
      deregisterClient (procFn client)
        (remove_client token
          (removeFromRegistry token
            { st with
                connections := updateEntry st.connections token (procFn client) })) := by
    simp only [handleConnEvent, hl, hc, if_true, hup]
  refine ⟨heq, ?_, ?_⟩
  · rw [heq]
    exact lookupClient_eraseEntry_self _ token
  · rw [heq]
    intro hmem
    exact (mem_filter_ne.mp hmem).2 rfl

/-- Witness for C1: on the sample state with one live session under token 1,
a processing step that reports the session closed leads to token 1 being
absent from both the registry and the Server Context. -/
theorem C1_teardown_order_witness :
    lookupClient sampleSt.connections 1 = some sampleClient ∧
    (closeAll sampleClient).closed = true ∧
    lookupClient (handleConnEvent closeAll 1 sampleSt).connections 1 = none ∧
    1 ∉ (handleConnEvent closeAll 1 sampleSt).serverClients :=
  ⟨rfl, rfl,
   (C1_teardown_order closeAll 1 sampleSt sampleClient rfl rfl).2.1,
   (C1_teardown_order closeAll 1 sampleSt sampleClient rfl rfl).2.2⟩

/-- C2: the tokens minted over any sequence of `N` accepted connections are
pairwise distinct and strictly greater than the reserved listener token
`SERVER`; the allocator `next` is a pure counter (returns the current value,
increments by one) started at `SERVER + 1`. -/
theorem C2_minted_tokens_unique (N : Nat) :
    (mintTokens N (SERVER + 1)).Nodup ∧
    (∀ t ∈ mintTokens N (SERVER + 1), SERVER < t) ∧
    (∀ c, next c = (c, c + 1)) := by
  refine ⟨mintTokens_nodup N (SERVER + 1), ?_, fun c => rfl⟩
  intro t ht
  have h := mem_mintTokens.mp ht
  omega

/-- Witness for C2 at `N = 3`, token `2`. -/
theorem C2_minted_tokens_unique_witness :
    2 ∈ mintTokens 3 (SERVER + 1) ∧ SERVER < 2 :=
  ⟨by decide, (C2_minted_tokens_unique 3).2.1 2 (by decide)⟩

/-- C3 (code bug, evaluated at the failing input): a listener bound at
address 7 accepts a connection whose peer address is 42; the session stored
under the freshly minted token 1 carries address 7 — the listening address
`addr` that `main` passes to `Client::new` — and not the peer address 42
returned by the accept call (which the source only logs). -/
theorem C3_session_stores_listening_address :
    lookupClient (acceptOne 7 ⟨42⟩ initSt).connections 1 =
      some { token := 1, connection := ⟨42⟩, address := 7, closed := false,
             protoState := 0 } ∧
    (7 : Nat) ≠ 42 :=
  ⟨rfl, by decide⟩

/-- C4: on a readiness event for the listener token the reactor accepts in a
tight inner loop until the accept call reports would-block, which is
swallowed (the drain returns to polling with every queued connection
accepted); any other accept error aborts the drain and propagates out of the
reactor iteration as a fatal loop error. -/
theorem C4_listener_drain_and_errors (procFn : Client → Client) (a e : Nat)
    (peers : List (Nat × Bool)) (rest : List AcceptOutcome)
    (st : ReactorState) :
    acceptDrain a (peers.map (fun p => AcceptOutcome.ok p.1 p.2) ++
        AcceptOutcome.wouldBlock :: rest) st =
      Except.ok (peers.foldl (fun s p => acceptOne a ⟨p.1⟩ s) st) ∧
    acceptDrain a (peers.map (fun p => AcceptOutcome.ok p.1 p.2) ++
        AcceptOutcome.fatal e :: rest) st = Except.error e ∧
    reactorIter procFn a
      (PollResult.ok [⟨SERVER, peers.map (fun p => AcceptOutcome.ok p.1 p.2) ++
        AcceptOutcome.fatal e :: rest⟩]) st = IterOutcome.fatal e := by
  have hpe : processEvent procFn a st
      ⟨SERVER, peers.map (fun p => AcceptOutcome.ok p.1 p.2) ++
        AcceptOutcome.fatal e :: rest⟩ = Except.error e :=
    acceptDrain_fatal a e peers rest st
  have hb : processBatch procFn a
      [⟨SERVER, peers.map (fun p => AcceptOutcome.ok p.1 p.2) ++
        AcceptOutcome.fatal e :: rest⟩] st = Except.error e := by
    simp only [processBatch]
    rw [hpe]
  refine ⟨acceptDrain_drains a peers rest st,
          acceptDrain_fatal a e peers rest st, ?_⟩
  simp only [reactorIter]
  rw [hb]

/-- C5: registry/context consistency — if the Connection Registry and the
Server Context agree on the token set and one reactor iteration completes
normally, they agree on the token set afterwards. -/
theorem C5_registry_context_consistency (procFn : Client → Client) (a : Nat)
    (pr : PollResult) (st st' : ReactorState)
    (h : tokensConsistent st)
    (hi : reactorIter procFn a pr st = IterOutcome.next st') :
    tokensConsistent st' := by
  cases pr with
  | err b e => cases b <;> exact IterOutcome.noConfusion hi
  | ok batch =>
      simp only [reactorIter] at hi
      cases hb : processBatch procFn a batch st with
      | ok s =>
          rw [hb] at hi
          injection hi with h2
          exact h2 ▸ tokensConsistent_processBatch procFn a batch h hb
      | error e =>
          rw [hb] at hi
          exact IterOutcome.noConfusion hi

/-- Witness for C5: one iteration over a batch holding a listener event (one
accept, then would-block) followed by an event for the live token 1 keeps the
registry and the context on the same token set. -/
theorem C5_registry_context_consistency_witness :
    tokensConsistent sampleSt ∧ tokensConsistent c5After :=
  ⟨fun _ => Iff.rfl,
   C5_registry_context_consistency procId 7
     (PollResult.ok
       [⟨SERVER, [AcceptOutcome.ok 5 true, AcceptOutcome.wouldBlock]⟩,
        ⟨1, []⟩])
     sampleSt c5After (fun _ => Iff.rfl) rfl⟩

/-- C6: an interrupted poll is never surfaced as an error — the iteration
retries with the state untouched and processes no event — while a
non-interrupted poll failure terminates the loop with the underlying
error. -/
theorem C6_interrupted_poll_retries (procFn : Client → Client) (a e e' : Nat)
    (st : ReactorState) :
    reactorIter procFn a (PollResult.err true e) st = IterOutcome.retry st ∧
    reactorIter procFn a (PollResult.err false e') st = IterOutcome.fatal e' :=
  ⟨rfl, rfl⟩

/-- C7: a readiness event carrying a non-listener token with no entry in the
Connection Registry is ignored silently — the event handler returns without
error and leaves the state exactly unchanged (no removal, deregistration, or
session processing). -/
theorem C7_sporadic_event_ignored (procFn : Client → Client) (a : Nat)
    (ev : Ev) (st : ReactorState)
    (hne : ev.token ≠ SERVER)
    (habs : lookupClient st.connections ev.token = none) :
    processEvent procFn a st ev = Except.ok st ∧
    handleConnEvent procFn ev.token st = st := by
  have hh : handleConnEvent procFn ev.token st = st := by
    simp only [handleConnEvent, habs]
  refine ⟨?_, hh⟩
  simp only [processEvent, if_neg hne]
  rw [hh]

/-- Witness for C7: token 5 is not the listener token and has no registry
entry in the sample state; its event is ignored with the state unchanged. -/
theorem C7_sporadic_event_ignored_witness :
    (Ev.mk 5 []).token ≠ SERVER ∧
    lookupClient sampleSt.connections (Ev.mk 5 []).token = none ∧
    processEvent procId 7 sampleSt (Ev.mk 5 []) = Except.ok sampleSt :=
  ⟨by decide, rfl,
   (C7_sporadic_event_ignored procId 7 (Ev.mk 5 []) sampleSt (by decide) rfl).1⟩

/-- C8: startup tuning — a failing limit read panics; otherwise the soft
limit is set to the hard limit, which the write either accepts (success,
with the returned limits having soft = hard) or rejects (panic); when soft
and hard are already equal the requested limits equal the current ones, so
the write is a no-op. -/
theorem C8_fd_limit_tuning (l : Rlimit) (setr : Rlimit → Bool) :
    adjust_file_descriptor_limits none setr = TuneOutcome.panicked ∧
    (setr { l with rlim_cur := l.rlim_max } = true →
      adjust_file_descriptor_limits (some l) setr =
        TuneOutcome.ok { l with rlim_cur := l.rlim_max }) ∧
    (setr { l with rlim_cur := l.rlim_max } = false →
      adjust_file_descriptor_limits (some l) setr = TuneOutcome.panicked) ∧
    (l.rlim_cur = l.rlim_max →
      ({ l with rlim_cur := l.rlim_max } : Rlimit) = l) := by
  refine ⟨rfl, ?_, ?_, ?_⟩
  · intro h
    simp [adjust_file_descriptor_limits, h]
  · intro h
    simp [adjust_file_descriptor_limits, h]
  · intro h
    cases l with
    | mk cur mx =>
        have h' : cur = mx := h
        subst h'
        rfl

/-- Witness for C8: limits soft 2, hard 4, with an accepting write: tuning
succeeds and returns soft = hard = 4. -/
theorem C8_fd_limit_tuning_witness :
    setrTrue { rlim_cur := 4, rlim_max := 4 } = true ∧
    adjust_file_descriptor_limits (some { rlim_cur := 2, rlim_max := 4 })
      setrTrue = TuneOutcome.ok { rlim_cur := 4, rlim_max := 4 } :=
  ⟨rfl, (C8_fd_limit_tuning { rlim_cur := 2, rlim_max := 4 } setrTrue).2.1 rfl⟩

/-- C9: each successful accept cycle is literally the composition mint →
poller registration (READABLE and WRITABLE) → `add_client` → registry
insertion, so the socket is registered under its fresh token, with both
interests, before the session is inserted into the Connection Registry; at
registration time the registry is still untouched. -/
theorem C9_register_before_insert (a : Nat) (conn : Connection)
    (st : ReactorState) :
    acceptOne a conn st =
      insertRegistry st.unique_token (Client.new st.unique_token conn a)
        (add_client st.unique_token
          (registerPoller st.unique_token
            [Interest.readable, Interest.writable]
            { st with unique_token := st.unique_token + 1 })) ∧
    (st.unique_token, [Interest.readable, Interest.writable]) ∈
      (acceptOne a conn st).registered ∧
    (registerPoller st.unique_token [Interest.readable, Interest.writable]
      { st with unique_token := st.unique_token + 1 }).connections =
      st.connections := by
  refine ⟨rfl, ?_, rfl⟩
  simp [acceptOne, next, registerPoller, add_client, insertRegistry]

/-- C10: if the session's closed flag is false after its per-event
processing, handling that event leaves the registry's key set, the Server
Context's client set, and the poller registrations unchanged — nothing is
inserted, removed, or deregistered on that path. -/
theorem C10_open_session_frame (procFn : Client → Client) (token : Nat)
    (st : ReactorState) (client : Client)
    (hl : lookupClient st.connections token = some client)
    (hc : (procFn client).closed = false) :
    keys (handleConnEvent procFn token st).connections =
      keys st.connections ∧
    (handleConnEvent procFn token st).serverClients = st.serverClients ∧
    (handleConnEvent procFn token st).registered = st.registered := by
  have hres : handleConnEvent procFn token st =
      { st with
          connections := updateEntry st.connections token (procFn client) } := by
    simp only [handleConnEvent, hl, hc, Bool.false_eq_true, if_false]
  rw [hres]
  exact ⟨keys_updateEntry st.connections token (procFn client), rfl, rfl⟩

/-- Witness for C10: on the sample state the identity processing leaves the
session open, and the Server Context's client set is unchanged. -/
theorem C10_open_session_frame_witness :
    lookupClient sampleSt.connections 1 = some sampleClient ∧
    (procId sampleClient).closed = false ∧
    (handleConnEvent procId 1 sampleSt).serverClients =
      sampleSt.serverClients :=
  ⟨rfl, rfl, (C10_open_session_frame procId 1 sampleSt sampleClient rfl rfl).2.1⟩

end Pumpkin
